import Mathlib

/-!
Shallow embedding of `drugbank_downloader` (file `src/drugbank_downloader/api.py`)
and proofs about its public operations `download_drugbank`, `open_drugbank`,
`parse_drugbank` and `get_drugbank_root`.

The module is sequential glue code around external libraries.  The embedding
models the code of `api.py` directly; the behaviour of the delegated external
utilities (`pystow.get_config`, `pystow.ensure`, `zipfile`, `lxml`,
`bioversions`) is modelled as an explicit environment `Env`, and every
externally observable action (version lookup, network transfer, resource
open/close) is recorded in an event trace.
-/

namespace DrugbankDownloader

/-- Errors the pipeline can surface to the caller.  `importErr` models Python's
`ImportError`, `configErr` the missing-configuration error raised by
`pystow.get_config` with `raise_on_missing=True`, `runtimeErr` the
`RuntimeError` raised by the size validator, and `delegated` any lower-level
I/O, HTTP, zip or XML-parsing error raised by a delegated library and carried
through unchanged. -/
inductive DBErr where
  | importErr (msg : String)
  | configErr (ns key : String)
  | runtimeErr (msg : String)
  | delegated (msg : String)
deriving DecidableEq, Repr

/-- Externally observable actions of one run. -/
inductive Event where
  | versionLookup (dataset : String)
  | transfer (url user pass : String)
  | openZip
  | closeZip
  | openMember (name : String)
  | closeMember
deriving DecidableEq, Repr

/-- A cache path, as the list of its segments. -/
abbrev CachePath := List String

/-- The local cache: which paths exist and the byte size of the file stored
at each. -/
abbrev FS := List (CachePath × Nat)

def fsLookup : FS → CachePath → Option Nat
  | [], _ => Option.none
  | (q, n) :: rest, p => if q = p then some n else fsLookup rest p

def fsErase : FS → CachePath → FS
  | [], _ => []
  | (q, n) :: rest, p => if q = p then fsErase rest p else (q, n) :: fsErase rest p

def fsInsert (fs : FS) (p : CachePath) (n : Nat) : FS :=
  (p, n) :: fsErase fs p

/-- The in-memory XML document tree returned by the delegated parser; only its
root element is inspected by this package. -/
structure XmlElement where
  tag : String
deriving DecidableEq, Repr

/-- The parsed XML document tree; `getroot` models
`ElementTree.getroot()`. -/
structure XmlTree where
  getroot : XmlElement
deriving DecidableEq, Repr

/-- The behaviour of the delegated external libraries during one run.

Modelled from the spec: `bioversions` (the optional version-lookup dependency:
`Option.none` means it is not installed), the named configuration source read
by `pystow.get_config`, the outcome of a network transfer performed by
`pystow.ensure` (`some n` = a response of `n` bytes is stored at the cache
path, `Option.none` = the transfer raises a lower-level error and leaves no
artifact), and the outcomes of opening the zip archive, opening the member
stream, and XML-parsing the member. -/
structure Env where
  bioversions : Option (String → String)
  config : String → String → Option String
  transfer : Option Nat
  transferErr : String
  zipErr : Option String
  memberErr : Option String
  parsed : Except String XmlTree

/-- The `prefix` argument of `download_drugbank`: `Union[None, str, Sequence[str]]`. -/
inductive PfxArg where
  | none
  | str (s : String)
  | seq (l : List String)
deriving DecidableEq, Repr

/-- Lines 111-114 of `api.py`: `None` becomes `["drugbank"]`, a bare string
becomes a one-element list, a sequence is used as is. -/
def PfxArg.resolve : PfxArg → List String
  | .none => ["drugbank"]
  | .str s => [s]
  | .seq l => l

/-- Result of one stage: the returned value or raised error, the final cache
state, and the trace of observable events. -/
structure Res (α : Type) where
  result : Except DBErr α
  fs : FS
  events : List Event

/-- Modelled from the spec: `pystow.get_config(ns, key, passthrough=...,
raise_on_missing=True)` — an explicit argument takes precedence over the
configured value; if neither is available a missing-configuration error is
raised. -/
def get_config (env : Env) (ns key : String) (passthrough : Option String) :
    Except DBErr String :=
  match passthrough with
  | some v => .ok v
  | Option.none =>
    match env.config ns key with
    | some v => .ok v
    | Option.none => .error (.configErr ns key)

/-- The size threshold of the validator: `5 * 1024 * 1024` bytes. -/
def THRESHOLD : Nat := 5 * 1024 * 1024

/-- Line 108 of `api.py`: the download URL, with every dot of the version
replaced by a hyphen. -/
def drugbank_url (version : String) : String :=
  "https://go.drugbank.com/releases/" ++ version.replace "." "-"
    ++ "/downloads/all-full-database"

/-- The cache path used by `pystow.ensure(*prefix, version, ...,
name="full database.xml.zip")`: the prefix segments, then the version
unmodified, then the fixed file name. -/
def cache_path (pfx : List String) (version : String) : CachePath :=
  pfx ++ [version, "full database.xml.zip"]

/-- The `ImportError` message raised when no version is given and
`bioversions` is not installed. -/
def bioversions_import_msg : String :=
  "must first `pip install bioversions` to get latest DrugBank version automatically"

/-- The `RuntimeError` message of the size validator (condensed from the
dedented f-string; the version is interpolated into the releases URL). -/
def unapproved_msg (version : String) : String :=
  "Your DrugBank credentials were either invalid, or you have not been approved for downloads. "
    ++ "You can tell if your credentials have not been approved by visiting "
    ++ "https://go.drugbank.com/releases/" ++ version ++ "#full."

/-- Modelled from the spec: `pystow.ensure` — downloads (with basic auth)
into the versioned cache path only if the path is not already present or if
`force` is set, and returns that local path.  A transfer attempt is recorded
as a `transfer` event; a failed transfer raises the delegated error and
leaves no artifact at the path. -/
def ensure (env : Env) (fs : FS) (pfx : List String) (version url user pass : String)
    (force : Bool) : Except DBErr CachePath × FS × List Event :=
  let path := cache_path pfx version
  if !force && (fsLookup fs path).isSome then
    (.ok path, fs, [])
  else
    match env.transfer with
    | some n => (.ok path, fsInsert fs path n, [.transfer url user pass])
    | Option.none => (.error (.delegated env.transferErr), fsErase fs path, [.transfer url user pass])

/-- Lines 106-160 of `api.py`, after the version has been resolved: build the
URL, normalise the prefix, resolve both credentials, delegate to `ensure`,
then validate the fetched file's size, deleting it and raising if it is below
the threshold.  `evs0` carries the events of the version-resolution step. -/
def download_with_version (env : Env) (fs : FS) (username password : Option String)
    (version : String) (pfx : PfxArg) (force : Bool) (evs0 : List Event) :
    Res CachePath :=
  let url := drugbank_url version
  let pfxL := pfx.resolve
  match get_config env "drugbank" "username" username with
  | .error e => ⟨.error e, fs, evs0⟩
  | .ok user =>
    match get_config env "drugbank" "password" password with
    | .error e => ⟨.error e, fs, evs0⟩
    | .ok pass =>
      match ensure env fs pfxL version url user pass force with
      | (.error e, fs1, evs1) => ⟨.error e, fs1, evs0 ++ evs1⟩
      | (.ok path, fs1, evs1) =>
        match fsLookup fs1 path with
        | Option.none => ⟨.error (.delegated "FileNotFoundError"), fs1, evs0 ++ evs1⟩
        | some size =>
          if size < THRESHOLD then
            ⟨.error (.runtimeErr (unapproved_msg version)), fsErase fs1 path, evs0 ++ evs1⟩
          else
            ⟨.ok path, fs1, evs0 ++ evs1⟩

/-- Lines 68-160 of `api.py`: `download_drugbank`.  If no version is given,
the code imports `bioversions` (raising `ImportError` when it is not
installed) and looks the latest version up; then fetch and validate. -/
def download_drugbank (env : Env) (fs : FS) (username password version : Option String)
    (pfx : PfxArg) (force : Bool) : Res CachePath :=
  match version with
  | Option.none =>
    match env.bioversions with
    | Option.none => ⟨.error (.importErr bioversions_import_msg), fs, []⟩
    | some get_version =>
      download_with_version env fs username password (get_version "drugbank") pfx force
        [.versionLookup "drugbank"]
  | some v => download_with_version env fs username password v pfx force []

/-- Lines 54-65 of `api.py`: `open_drugbank` used as a scoped block.  It
downloads (with `force` defaulted to `False`), opens the zip archive, opens
the member `"full database.xml"`, runs the caller's block `body` on the
stream, and closes both handles on every exit path of the two `with`
statements.  `body` is the caller's block: its normal result or the exception
it raises. -/
def open_drugbank {α : Type} (env : Env) (fs : FS)
    (username password version : Option String) (pfx : PfxArg)
    (body : Except DBErr α) : Res α :=
  match download_drugbank env fs username password version pfx false with
  | ⟨.error e, fs1, evs⟩ => ⟨.error e, fs1, evs⟩
  | ⟨.ok _path, fs1, evs⟩ =>
    match env.zipErr with
    | some e => ⟨.error (.delegated e), fs1, evs⟩
    | Option.none =>
      match env.memberErr with
      | some e => ⟨.error (.delegated e), fs1, evs ++ [.openZip, .closeZip]⟩
      | Option.none =>
        ⟨body, fs1,
          evs ++ [.openZip, .openMember "full database.xml", .closeMember, .closeZip]⟩

/-- Lines 38-51 of `api.py`: `parse_drugbank` — open the member stream and
parse it with the delegated XML parser inside the scoped block. -/
def parse_drugbank (env : Env) (fs : FS) (username password version : Option String)
    (pfx : PfxArg) : Res XmlTree :=
  open_drugbank env fs username password version pfx
    (match env.parsed with
     | .ok t => .ok t
     | .error e => .error (.delegated e))

/-- Lines 25-35 of `api.py`: `get_drugbank_root` — parse then take the root
element of the tree. -/
def get_drugbank_root (env : Env) (fs : FS) (username password version : Option String)
    (pfx : PfxArg) : Res XmlElement :=
  match parse_drugbank env fs username password version pfx with
  | ⟨.ok t, fs1, evs⟩ => ⟨.ok t.getroot, fs1, evs⟩
  | ⟨.error e, fs1, evs⟩ => ⟨.error e, fs1, evs⟩

/-- The optional parameters of `download_drugbank` in source order. -/
def download_drugbank_params : List String :=
  ["username", "password", "version", "prefix", "force"]

/-- The optional parameters of `open_drugbank` in source order. -/
def open_drugbank_params : List String :=
  ["username", "password", "version", "prefix"]

/-- The optional parameters of `parse_drugbank` in source order. -/
def parse_drugbank_params : List String :=
  ["username", "password", "version", "prefix"]

/-- The optional parameters of `get_drugbank_root` in source order. -/
def get_drugbank_root_params : List String :=
  ["username", "password", "version", "prefix"]

/-- Number of network transfers recorded in a trace. -/
def countTransfers (evs : List Event) : Nat :=
  (evs.filter (fun e => match e with | .transfer _ _ _ => true | _ => false)).length

/-- Number of occurrences of one event in a trace. -/
def countEvent (e : Event) (evs : List Event) : Nat :=
  (evs.filter (fun x => decide (x = e))).length

/-- The cache invariant of the spec at one path: either the path does not
exist or it holds an artifact of at least the threshold size. -/
def Inv (fs : FS) (p : CachePath) : Prop :=
  ∀ n, fsLookup fs p = some n → THRESHOLD ≤ n

theorem fsLookup_fsErase_self (fs : FS) (p : CachePath) :
    fsLookup (fsErase fs p) p = Option.none := by
  induction fs with
  | nil => rfl
  | cons hd tl ih =>
    obtain ⟨q, n⟩ := hd
    by_cases h : q = p <;> simp [fsErase, fsLookup, h, ih]

theorem fsLookup_fsErase_ne (fs : FS) (p q : CachePath) (h : q ≠ p) :
    fsLookup (fsErase fs p) q = fsLookup fs q := by
  induction fs with
  | nil => rfl
  | cons hd tl ih =>
    obtain ⟨r, n⟩ := hd
    by_cases hr : r = p
    · subst hr
      have : r ≠ q := fun hq => h hq.symm
      simp [fsErase, fsLookup, this, ih]
    · by_cases hq : r = q <;> simp [fsErase, fsLookup, hr, hq, h, ih]

theorem fsLookup_fsInsert_self (fs : FS) (p : CachePath) (n : Nat) :
    fsLookup (fsInsert fs p n) p = some n := by
  simp [fsInsert, fsLookup]

theorem fsLookup_fsInsert_ne (fs : FS) (p q : CachePath) (n : Nat) (h : q ≠ p) :
    fsLookup (fsInsert fs p n) q = fsLookup fs q := by
  have : p ≠ q := fun hq => h hq.symm
  simp [fsInsert, fsLookup, this, fsLookup_fsErase_ne fs p q h]

/-- C1: for every fetched artifact, `download_drugbank` raises the
unapproved-account `RuntimeError` iff the file's size is strictly below
`5*1024*1024` bytes; an undersized file is deleted and the error raised, a
file at or above the threshold passes validation and its path is returned. -/
theorem C1_size_threshold (env : Env) (fs : FS) (u pw v : String) (pfx : PfxArg)
    (n : Nat) (ht : env.transfer = some n) :
    (n < THRESHOLD →
      (download_drugbank env fs (some u) (some pw) (some v) pfx true).result
          = .error (.runtimeErr (unapproved_msg v)) ∧
      fsLookup (download_drugbank env fs (some u) (some pw) (some v) pfx true).fs
          (cache_path pfx.resolve v) = Option.none) ∧
    (THRESHOLD ≤ n →
      (download_drugbank env fs (some u) (some pw) (some v) pfx true).result
          = .ok (cache_path pfx.resolve v) ∧
      fsLookup (download_drugbank env fs (some u) (some pw) (some v) pfx true).fs
          (cache_path pfx.resolve v) = some n) := by
  have hrun : download_drugbank env fs (some u) (some pw) (some v) pfx true
      = if n < THRESHOLD then
          ⟨.error (.runtimeErr (unapproved_msg v)),
            fsErase (fsInsert fs (cache_path pfx.resolve v) n) (cache_path pfx.resolve v),
            [.transfer (drugbank_url v) u pw]⟩
        else
          ⟨.ok (cache_path pfx.resolve v), fsInsert fs (cache_path pfx.resolve v) n,
            [.transfer (drugbank_url v) u pw]⟩ := by
    simp [download_drugbank, download_with_version, get_config, ensure, ht,
      fsLookup_fsInsert_self]
  constructor
  · intro hlt
    rw [hrun, if_pos hlt]
    exact ⟨rfl, fsLookup_fsErase_self _ _⟩
  · intro hge
    rw [hrun, if_neg (Nat.not_lt.mpr hge)]
    exact ⟨rfl, fsLookup_fsInsert_self _ _ _⟩

/-- Witness for C1 at a concrete run: a fetched file of size `5*1024*1024 - 1`
bytes makes `download_drugbank` raise the unapproved-account error. -/
theorem C1_size_threshold_witness :
    (download_drugbank
        ⟨Option.none, fun _ _ => Option.none, some 5242879, "err", Option.none,
          Option.none, .error "xml"⟩
        [] (some "user") (some "pass") (some "5.1.10") PfxArg.none true).result
      = .error (.runtimeErr (unapproved_msg "5.1.10")) :=
  ((C1_size_threshold _ [] "user" "pass" "5.1.10" PfxArg.none 5242879 rfl).1
    (by decide)).1

theorem Inv_fsErase (fs : FS) (p q : CachePath) (h : Inv fs q) :
    Inv (fsErase fs p) q := by
  intro m hm
  by_cases hpq : q = p
  · subst hpq
    rw [fsLookup_fsErase_self] at hm
    cases hm
  · rw [fsLookup_fsErase_ne fs p q hpq] at hm
    exact h m hm

theorem Inv_fsInsert_ge (fs : FS) (p q : CachePath) (n : Nat) (hn : THRESHOLD ≤ n)
    (h : Inv fs q) : Inv (fsInsert fs p n) q := by
  intro m hm
  by_cases hpq : q = p
  · subst hpq
    rw [fsLookup_fsInsert_self] at hm
    injection hm with hm
    subst hm
    exact hn
  · rw [fsLookup_fsInsert_ne fs p q n hpq] at hm
    exact h m hm

/-- The three possible outcomes of `ensure`: cache hit without transfer,
successful transfer, failed transfer. -/
theorem ensure_cases (env : Env) (fs : FS) (pfxL : List String)
    (v url user pass : String) (force : Bool) :
    ensure env fs pfxL v url user pass force
        = (.ok (cache_path pfxL v), fs, []) ∨
    (∃ n, env.transfer = some n ∧
      ensure env fs pfxL v url user pass force
        = (.ok (cache_path pfxL v), fsInsert fs (cache_path pfxL v) n,
            [.transfer url user pass])) ∨
    (env.transfer = Option.none ∧
      ensure env fs pfxL v url user pass force
        = (.error (.delegated env.transferErr), fsErase fs (cache_path pfxL v),
            [.transfer url user pass])) := by
  unfold ensure
  by_cases hc : (!force && (fsLookup fs (cache_path pfxL v)).isSome) = true
  · left
    simp [hc]
  · cases ht : env.transfer with
    | none => right; right; simp [hc, ht]
    | some n => right; left; exact ⟨n, rfl, by simp [hc, ht]⟩

/-- Cache-invariant preservation for the fetch-and-validate stage. -/
theorem with_version_inv (env : Env) (fs : FS) (username password : Option String)
    (v : String) (pfx : PfxArg) (force : Bool) (evs0 : List Event) (q : CachePath)
    (hq : Inv fs q) :
    Inv (download_with_version env fs username password v pfx force evs0).fs q ∧
    (∀ pa,
      (download_with_version env fs username password v pfx force evs0).result = .ok pa →
      ∃ n, fsLookup (download_with_version env fs username password v pfx force evs0).fs pa
            = some n ∧ THRESHOLD ≤ n) := by
  unfold download_with_version
  dsimp only
  rcases get_config env "drugbank" "username" username with e | user
  · exact ⟨hq, fun pa h => by cases h⟩
  rcases get_config env "drugbank" "password" password with e | pass
  · exact ⟨hq, fun pa h => by cases h⟩
  dsimp only
  rcases ensure_cases env fs pfx.resolve v (drugbank_url v) user pass force with
    hcase | ⟨n, ht, hcase⟩ | ⟨ht, hcase⟩
  · rw [hcase]
    dsimp only
    cases hl : fsLookup fs (cache_path pfx.resolve v) with
    | none => exact ⟨hq, fun pa h => by cases h⟩
    | some size =>
      dsimp only
      by_cases hs : size < THRESHOLD
      · rw [if_pos hs]
        exact ⟨Inv_fsErase fs _ q hq, fun pa h => by cases h⟩
      · rw [if_neg hs]
        refine ⟨hq, fun pa h => ?_⟩
        injection h with h
        subst h
        exact ⟨size, hl, Nat.not_lt.mp hs⟩
  · rw [hcase]
    dsimp only
    rw [fsLookup_fsInsert_self]
    dsimp only
    by_cases hs : n < THRESHOLD
    · rw [if_pos hs]
      refine ⟨?_, fun pa h => by cases h⟩
      intro m hm
      by_cases hpq : q = cache_path pfx.resolve v
      · subst hpq
        rw [fsLookup_fsErase_self] at hm
        cases hm
      · rw [fsLookup_fsErase_ne _ _ _ hpq, fsLookup_fsInsert_ne _ _ _ _ hpq] at hm
        exact hq m hm
    · rw [if_neg hs]
      refine ⟨Inv_fsInsert_ge fs _ q n (Nat.not_lt.mp hs) hq, fun pa h => ?_⟩
      injection h with h
      subst h
      exact ⟨n, fsLookup_fsInsert_self _ _ _, Nat.not_lt.mp hs⟩
  · rw [hcase]
    dsimp only
    exact ⟨Inv_fsErase fs _ q hq, fun pa h => by cases h⟩

/-- C2: after any call to `download_drugbank`, whether it returns or raises,
a cache path that satisfied the size invariant before the call still does:
the final cache never holds an undersized artifact at such a path, and a
successfully returned path always holds an artifact of at least the
threshold size. -/
theorem C2_cache_invariant (env : Env) (fs : FS)
    (username password version : Option String) (pfx : PfxArg) (force : Bool)
    (q : CachePath) (hq : Inv fs q) :
    Inv (download_drugbank env fs username password version pfx force).fs q ∧
    (∀ pa,
      (download_drugbank env fs username password version pfx force).result = .ok pa →
      ∃ n, fsLookup (download_drugbank env fs username password version pfx force).fs pa
            = some n ∧ THRESHOLD ≤ n) := by
  unfold download_drugbank
  cases version with
  | some v => exact with_version_inv env fs username password v pfx force [] q hq
  | none =>
    cases env.bioversions with
    | none => exact ⟨hq, fun pa h => by cases h⟩
    | some get_version =>
      exact with_version_inv env fs username password (get_version "drugbank") pfx force
        [.versionLookup "drugbank"] q hq

/-- Witness for C2 at a concrete run: starting from an empty cache, after a
successful 6-megabyte fetch the invariant holds at the cache path. -/
theorem C2_cache_invariant_witness :
    Inv (download_drugbank
        ⟨Option.none, fun _ _ => Option.none, some 6291456, "err", Option.none,
          Option.none, .error "xml"⟩
        [] (some "user") (some "pass") (some "5.1.10") PfxArg.none false).fs
      ["drugbank", "5.1.10", "full database.xml.zip"] :=
  (C2_cache_invariant _ [] (some "user") (some "pass") (some "5.1.10") PfxArg.none false
    ["drugbank", "5.1.10", "full database.xml.zip"]
    (fun _ h => Option.noConfusion h)).1

/-- Event-trace characterisation of the fetch-and-validate stage: either no
transfer happened, or exactly one transfer to the constructed URL with the
resolved credentials was appended to the trace. -/
theorem with_version_transfer_events (env : Env) (fs : FS)
    (username password : Option String) (v : String) (pfx : PfxArg) (force : Bool)
    (evs0 : List Event) :
    (download_with_version env fs username password v pfx force evs0).events = evs0 ∨
    (∃ user pass,
      get_config env "drugbank" "username" username = .ok user ∧
      get_config env "drugbank" "password" password = .ok pass ∧
      (download_with_version env fs username password v pfx force evs0).events
        = evs0 ++ [.transfer (drugbank_url v) user pass]) := by
  unfold download_with_version
  dsimp only
  rcases get_config env "drugbank" "username" username with e | user
  · left; rfl
  rcases get_config env "drugbank" "password" password with e | pass
  · left; rfl
  dsimp only
  rcases ensure_cases env fs pfx.resolve v (drugbank_url v) user pass force with
    hcase | ⟨n, ht, hcase⟩ | ⟨ht, hcase⟩
  · rw [hcase]
    dsimp only
    cases fsLookup fs (cache_path pfx.resolve v) with
    | none => left; simp
    | some size =>
      dsimp only
      by_cases hs : size < THRESHOLD
      · rw [if_pos hs]; left; simp
      · rw [if_neg hs]; left; simp
  · rw [hcase]
    dsimp only
    rw [fsLookup_fsInsert_self]
    dsimp only
    by_cases hs : n < THRESHOLD
    · rw [if_pos hs]; exact Or.inr ⟨user, pass, rfl, rfl, rfl⟩
    · rw [if_neg hs]; exact Or.inr ⟨user, pass, rfl, rfl, rfl⟩
  · rw [hcase]
    dsimp only
    exact Or.inr ⟨user, pass, rfl, rfl, rfl⟩

/-- A path returned by the fetch-and-validate stage is always the cache path
built from the resolved prefix and the version. -/
theorem with_version_ok_path (env : Env) (fs : FS)
    (username password : Option String) (v : String) (pfx : PfxArg) (force : Bool)
    (evs0 : List Event) (pa : CachePath)
    (h : (download_with_version env fs username password v pfx force evs0).result = .ok pa) :
    pa = cache_path pfx.resolve v := by
  unfold download_with_version at h
  dsimp only at h
  cases hu : get_config env "drugbank" "username" username with
  | error e => rw [hu] at h; cases h
  | ok user =>
  rw [hu] at h
  dsimp only at h
  cases hp : get_config env "drugbank" "password" password with
  | error e => rw [hp] at h; cases h
  | ok pass =>
  rw [hp] at h
  dsimp only at h
  rcases ensure_cases env fs pfx.resolve v (drugbank_url v) user pass force with
    hcase | ⟨n, ht, hcase⟩ | ⟨ht, hcase⟩
  · rw [hcase] at h
    dsimp only at h
    cases hl : fsLookup fs (cache_path pfx.resolve v) with
    | none => rw [hl] at h; cases h
    | some size =>
      rw [hl] at h
      dsimp only at h
      by_cases hs : size < THRESHOLD
      · rw [if_pos hs] at h; cases h
      · rw [if_neg hs] at h
        injection h with h
        exact h.symm
  · rw [hcase] at h
    dsimp only at h
    rw [fsLookup_fsInsert_self] at h
    dsimp only at h
    by_cases hs : n < THRESHOLD
    · rw [if_pos hs] at h; cases h
    · rw [if_neg hs] at h
      injection h with h
      exact h.symm
  · rw [hcase] at h
    cases h

/-- Any transfer event of the fetch-and-validate stage carries the resolved
credentials as basic-auth data. -/
theorem transfer_creds_of_mem (env : Env) (fs : FS)
    (username password : Option String) (v : String) (pfx : PfxArg) (force : Bool)
    (url user pass : String)
    (h : Event.transfer url user pass
      ∈ (download_with_version env fs username password v pfx force []).events) :
    url = drugbank_url v ∧
    get_config env "drugbank" "username" username = .ok user ∧
    get_config env "drugbank" "password" password = .ok pass := by
  rcases with_version_transfer_events env fs username password v pfx force [] with
    he | ⟨user', pass', hu, hp, he⟩
  · rw [he] at h
    cases h
  · rw [he] at h
    rw [List.nil_append, List.mem_singleton] at h
    injection h with h1 h2 h3
    subst h1; subst h2; subst h3
    exact ⟨rfl, hu, hp⟩

/-- C3: with an explicitly supplied version `v`, `download_drugbank` performs
no external version lookup; every transfer goes to exactly the URL built from
the fixed template with the dots of `v` replaced by hyphens; and the returned
cache path carries `v` unmodified as its version segment. -/
theorem C3_explicit_version (env : Env) (fs : FS) (username password : Option String)
    (v : String) (pfx : PfxArg) (force : Bool) :
    (∀ d, Event.versionLookup d
        ∉ (download_drugbank env fs username password (some v) pfx force).events) ∧
    (∀ url user pass,
      Event.transfer url user pass
          ∈ (download_drugbank env fs username password (some v) pfx force).events →
      url = "https://go.drugbank.com/releases/" ++ v.replace "." "-"
          ++ "/downloads/all-full-database") ∧
    (∀ pa,
      (download_drugbank env fs username password (some v) pfx force).result = .ok pa →
      pa = pfx.resolve ++ [v, "full database.xml.zip"]) := by
  have hdl : download_drugbank env fs username password (some v) pfx force
      = download_with_version env fs username password v pfx force [] := rfl
  refine ⟨?_, ?_, ?_⟩
  · intro d hd
    rw [hdl] at hd
    rcases with_version_transfer_events env fs username password v pfx force [] with
      he | ⟨user', pass', _, _, he⟩
    · rw [he] at hd; cases hd
    · rw [he, List.nil_append, List.mem_singleton] at hd; cases hd
  · intro url user pass h
    rw [hdl] at h
    exact (transfer_creds_of_mem env fs username password v pfx force url user pass h).1
  · intro pa h
    rw [hdl] at h
    exact with_version_ok_path env fs username password v pfx force [] pa h

/-- A concrete happy-path environment for witnesses: `bioversions` not
installed, no configured credentials, network transfers deliver a 6-megabyte
file, the zip archive and its member open fine, and XML parsing yields the
`drugbank` root element. -/
def envOk : Env :=
  ⟨Option.none, fun _ _ => Option.none, some 6291456, "err", Option.none, Option.none,
    .ok ⟨⟨"drugbank"⟩⟩⟩

/-- Witness for C3 at a concrete run: no version lookup happens, the single
transfer goes to the template URL, and the returned path carries the dotted
version segment. -/
theorem C3_explicit_version_witness :
    (Event.versionLookup "drugbank"
      ∉ (download_drugbank envOk [] (some "user") (some "pass") (some "5.1.10")
          PfxArg.none true).events) ∧
    drugbank_url "5.1.10"
      = "https://go.drugbank.com/releases/" ++ String.replace "5.1.10" "." "-"
          ++ "/downloads/all-full-database" ∧
    ["drugbank", "5.1.10", "full database.xml.zip"]
      = PfxArg.none.resolve ++ ["5.1.10", "full database.xml.zip"] :=
  ⟨(C3_explicit_version envOk [] (some "user") (some "pass") "5.1.10" PfxArg.none true).1
      "drugbank",
   (C3_explicit_version envOk [] (some "user") (some "pass") "5.1.10" PfxArg.none true).2.1
      (drugbank_url "5.1.10") "user" "pass"
      (by
        have he : (download_drugbank envOk [] (some "user") (some "pass") (some "5.1.10")
            PfxArg.none true).events
            = [Event.transfer (drugbank_url "5.1.10") "user" "pass"] := rfl
        rw [he]
        exact List.mem_singleton.mpr rfl),
   (C3_explicit_version envOk [] (some "user") (some "pass") "5.1.10" PfxArg.none true).2.2
      ["drugbank", "5.1.10", "full database.xml.zip"] rfl⟩

/-- The fetch stage fails before any transfer when a required credential is
available neither explicitly nor from configuration. -/
theorem with_version_missing_cred (env : Env) (fs : FS) (password : Option String)
    (v : String) (pfx : PfxArg) (force : Bool) (evs0 : List Event) :
    (env.config "drugbank" "username" = Option.none →
      download_with_version env fs Option.none password v pfx force evs0
        = ⟨.error (.configErr "drugbank" "username"), fs, evs0⟩) ∧
    (∀ u, env.config "drugbank" "password" = Option.none →
      download_with_version env fs (some u) Option.none v pfx force evs0
        = ⟨.error (.configErr "drugbank" "password"), fs, evs0⟩) := by
  constructor
  · intro hc
    unfold download_with_version
    dsimp only
    simp [get_config, hc]
  · intro u hc
    unfold download_with_version
    dsimp only
    simp [get_config, hc]

/-- C4: an explicitly passed username (resp. password) takes precedence over
the configured value under namespace "drugbank": the transfer authenticates
with the explicit value whatever the configuration holds.  When a required
credential is available neither explicitly nor from configuration, the
missing-configuration error is raised with no network transfer attempted and
the cache untouched. -/
theorem C4_credential_precedence (env : Env) (fs : FS) (v : String) (pfx : PfxArg)
    (force : Bool) :
    (∀ u password url user pass,
      Event.transfer url user pass
          ∈ (download_drugbank env fs (some u) password (some v) pfx force).events →
      user = u) ∧
    (∀ username p url user pass,
      Event.transfer url user pass
          ∈ (download_drugbank env fs username (some p) (some v) pfx force).events →
      pass = p) ∧
    (env.config "drugbank" "username" = Option.none →
      ∀ password,
        download_drugbank env fs Option.none password (some v) pfx force
          = ⟨.error (.configErr "drugbank" "username"), fs, []⟩) ∧
    (env.config "drugbank" "password" = Option.none →
      ∀ u,
        download_drugbank env fs (some u) Option.none (some v) pfx force
          = ⟨.error (.configErr "drugbank" "password"), fs, []⟩) := by
  refine ⟨?_, ?_, ?_, ?_⟩
  · intro u password url user pass h
    have hgc := (transfer_creds_of_mem env fs (some u) password v pfx force url user pass h).2.1
    have h2 : (Except.ok u : Except DBErr String) = .ok user := hgc
    injection h2 with h2
    exact h2.symm
  · intro username p url user pass h
    have hgc := (transfer_creds_of_mem env fs username (some p) v pfx force url user pass h).2.2
    have h2 : (Except.ok p : Except DBErr String) = .ok pass := hgc
    injection h2 with h2
    exact h2.symm
  · intro hc password
    exact (with_version_missing_cred env fs password v pfx force []).1 hc
  · intro hc u
    exact (with_version_missing_cred env fs Option.none v pfx force []).2 u hc

/-- Witness for C4 at a concrete run: the explicit username is the one used
for the transfer, and with no credential anywhere the configuration error is
raised with no transfer and an untouched cache. -/
theorem C4_credential_precedence_witness :
    ("user" : String) = "user" ∧
    download_drugbank envOk [] Option.none Option.none (some "5.1.10") PfxArg.none false
      = ⟨.error (.configErr "drugbank" "username"), [], []⟩ :=
  ⟨(C4_credential_precedence envOk [] "5.1.10" PfxArg.none true).1 "user" (some "pass")
      (drugbank_url "5.1.10") "user" "pass"
      (by
        have he : (download_drugbank envOk [] (some "user") (some "pass") (some "5.1.10")
            PfxArg.none true).events
            = [Event.transfer (drugbank_url "5.1.10") "user" "pass"] := rfl
        rw [he]
        exact List.mem_singleton.mpr rfl),
   (C4_credential_precedence envOk [] "5.1.10" PfxArg.none false).2.2.1 rfl Option.none⟩

/-- C5: with no version supplied and `bioversions` not installed,
`download_drugbank` raises `ImportError` immediately, carrying the corrective
instruction message, without touching the cache or performing any download or
other observable action. -/
theorem C5_missing_dependency (env : Env) (fs : FS) (username password : Option String)
    (pfx : PfxArg) (force : Bool) (h : env.bioversions = Option.none) :
    download_drugbank env fs username password Option.none pfx force
      = ⟨.error (.importErr bioversions_import_msg), fs, []⟩ ∧
    bioversions_import_msg
      = "must first `pip install bioversions` to get latest DrugBank version automatically" := by
  refine ⟨?_, rfl⟩
  unfold download_drugbank
  dsimp only
  rw [h]

/-- Witness for C5 at a concrete run with `bioversions` absent. -/
theorem C5_missing_dependency_witness :
    download_drugbank envOk [] Option.none Option.none Option.none PfxArg.none false
      = ⟨.error (.importErr bioversions_import_msg), [], []⟩ :=
  (C5_missing_dependency envOk [] Option.none Option.none PfxArg.none false rfl).1

/-- Traces of the fetch-and-validate stage extend `evs0` with network events
only. -/
theorem with_version_events_shape (env : Env) (fs : FS)
    (username password : Option String) (v : String) (pfx : PfxArg) (force : Bool)
    (evs0 : List Event)
    (h0 : ∀ e ∈ evs0,
      (∃ d, e = Event.versionLookup d) ∨ ∃ url user pass, e = Event.transfer url user pass) :
    ∀ e ∈ (download_with_version env fs username password v pfx force evs0).events,
      (∃ d, e = Event.versionLookup d) ∨ ∃ url user pass, e = Event.transfer url user pass := by
  intro e he
  rcases with_version_transfer_events env fs username password v pfx force evs0 with
    hev | ⟨user, pass, _, _, hev⟩
  · rw [hev] at he
    exact h0 e he
  · rw [hev] at he
    rcases List.mem_append.mp he with h | h
    · exact h0 e h
    · rcases List.mem_singleton.mp h with rfl
      exact Or.inr ⟨_, _, _, rfl⟩

/-- `download_drugbank` records network events only: version lookups and
transfers, never resource events. -/
theorem download_events_net_only (env : Env) (fs : FS)
    (username password version : Option String) (pfx : PfxArg) (force : Bool) :
    ∀ e ∈ (download_drugbank env fs username password version pfx force).events,
      (∃ d, e = Event.versionLookup d) ∨ ∃ url user pass, e = Event.transfer url user pass := by
  unfold download_drugbank
  cases version with
  | some v =>
    exact with_version_events_shape env fs username password v pfx force []
      (fun e he => absurd he (List.not_mem_nil e))
  | none =>
    cases env.bioversions with
    | none => exact fun e he => absurd he (List.not_mem_nil e)
    | some get_version =>
      refine with_version_events_shape env fs username password (get_version "drugbank")
        pfx force [.versionLookup "drugbank"] ?_
      intro e he
      rcases List.mem_singleton.mp he with rfl
      exact Or.inl ⟨_, rfl⟩

theorem countEvent_eq_zero (e : Event) (t : List Event) (h : ∀ x ∈ t, x ≠ e) :
    countEvent e t = 0 := by
  have hf : (t.filter fun x => decide (x = e)) = [] := by
    rw [List.filter_eq_nil_iff]
    intro a ha
    simpa using h a ha
  simp [countEvent, hf]

theorem countEvent_append (e : Event) (t1 t2 : List Event) :
    countEvent e (t1 ++ t2) = countEvent e t1 + countEvent e t2 := by
  simp [countEvent, List.filter_append]

/-- A network-only trace holds no resource events. -/
theorem counts_resource_zero (evs : List Event)
    (h : ∀ e ∈ evs,
      (∃ d, e = Event.versionLookup d) ∨ ∃ url user pass, e = Event.transfer url user pass) :
    countEvent Event.openZip evs = 0 ∧ countEvent Event.closeZip evs = 0 ∧
    countEvent (Event.openMember "full database.xml") evs = 0 ∧
    countEvent Event.closeMember evs = 0 := by
  refine ⟨?_, ?_, ?_, ?_⟩ <;>
    refine countEvent_eq_zero _ _ (fun x hx => ?_) <;>
    rcases h x hx with ⟨d, rfl⟩ | ⟨url, user, pass, rfl⟩ <;> simp

/-- C6: in every use of `open_drugbank` as a scoped block — whether the block
returns normally or raises — the zip archive handle and the member stream are
each closed exactly as often as they are opened. -/
theorem C6_resource_cleanup {α : Type} (env : Env) (fs : FS)
    (username password version : Option String) (pfx : PfxArg)
    (body : Except DBErr α) :
    countEvent Event.openZip
        (open_drugbank env fs username password version pfx body).events
      = countEvent Event.closeZip
          (open_drugbank env fs username password version pfx body).events ∧
    countEvent (Event.openMember "full database.xml")
        (open_drugbank env fs username password version pfx body).events
      = countEvent Event.closeMember
          (open_drugbank env fs username password version pfx body).events := by
  have hshape := download_events_net_only env fs username password version pfx false
  unfold open_drugbank
  rcases hdl : download_drugbank env fs username password version pfx false with
    ⟨res, fs1, evs⟩
  rw [hdl] at hshape
  obtain ⟨h1, h2, h3, h4⟩ := counts_resource_zero evs hshape
  cases res with
  | error e => exact ⟨h1.trans h2.symm, h3.trans h4.symm⟩
  | ok path =>
    dsimp only
    cases env.zipErr with
    | some e => exact ⟨h1.trans h2.symm, h3.trans h4.symm⟩
    | none =>
      dsimp only
      cases env.memberErr with
      | some e =>
        dsimp only
        constructor
        · rw [countEvent_append, countEvent_append, h1, h2]
          decide
        · rw [countEvent_append, countEvent_append, h3, h4]
          decide
      | none =>
        dsimp only
        constructor
        · rw [countEvent_append, countEvent_append, h1, h2]
          decide
        · rw [countEvent_append, countEvent_append, h3, h4]
          decide

/-- C7: with `force := False` two identical calls cause exactly one network
transfer — the second call returns the cached path without transferring —
while `force := True` always triggers a new transfer. -/
theorem C7_idempotent_caching (env : Env) (fs : FS) (u pw v : String) (pfx : PfxArg)
    (n : Nat) (ht : env.transfer = some n) (hn : THRESHOLD ≤ n)
    (hfs : fsLookup fs (cache_path pfx.resolve v) = Option.none) :
    countTransfers
        (download_drugbank env fs (some u) (some pw) (some v) pfx false).events = 1 ∧
    countTransfers
        (download_drugbank env
          (download_drugbank env fs (some u) (some pw) (some v) pfx false).fs
          (some u) (some pw) (some v) pfx false).events = 0 ∧
    (download_drugbank env
        (download_drugbank env fs (some u) (some pw) (some v) pfx false).fs
        (some u) (some pw) (some v) pfx false).result
      = .ok (cache_path pfx.resolve v) ∧
    (∀ fs2, countTransfers
        (download_drugbank env fs2 (some u) (some pw) (some v) pfx true).events = 1) := by
  have hnl : ¬ n < THRESHOLD := Nat.not_lt.mpr hn
  have hr1 : download_drugbank env fs (some u) (some pw) (some v) pfx false
      = ⟨.ok (cache_path pfx.resolve v), fsInsert fs (cache_path pfx.resolve v) n,
          [.transfer (drugbank_url v) u pw]⟩ := by
    simp [download_drugbank, download_with_version, get_config, ensure, ht, hfs,
      fsLookup_fsInsert_self, hnl]
  have hr2 : download_drugbank env (fsInsert fs (cache_path pfx.resolve v) n)
        (some u) (some pw) (some v) pfx false
      = ⟨.ok (cache_path pfx.resolve v), fsInsert fs (cache_path pfx.resolve v) n, []⟩ := by
    simp [download_drugbank, download_with_version, get_config, ensure,
      fsLookup_fsInsert_self, hnl]
  refine ⟨?_, ?_, ?_, ?_⟩
  · rw [hr1]
    rfl
  · rw [hr1]
    dsimp only
    rw [hr2]
    rfl
  · rw [hr1]
    dsimp only
    rw [hr2]
  · intro fs2
    have hr3 : download_drugbank env fs2 (some u) (some pw) (some v) pfx true
        = ⟨.ok (cache_path pfx.resolve v), fsInsert fs2 (cache_path pfx.resolve v) n,
            [.transfer (drugbank_url v) u pw]⟩ := by
      simp [download_drugbank, download_with_version, get_config, ensure, ht,
        fsLookup_fsInsert_self, hnl]
    rw [hr3]
    rfl

/-- Witness for C7 at a concrete run from an empty cache: the first call
transfers once, the second call transfers zero times. -/
theorem C7_idempotent_caching_witness :
    countTransfers
        (download_drugbank envOk [] (some "user") (some "pass") (some "5.1.10")
          PfxArg.none false).events = 1 ∧
    countTransfers
        (download_drugbank envOk
          (download_drugbank envOk [] (some "user") (some "pass") (some "5.1.10")
            PfxArg.none false).fs
          (some "user") (some "pass") (some "5.1.10") PfxArg.none false).events = 0 :=
  ⟨(C7_idempotent_caching envOk [] "user" "pass" "5.1.10" PfxArg.none 6291456 rfl
      (by decide) rfl).1,
   (C7_idempotent_caching envOk [] "user" "pass" "5.1.10" PfxArg.none 6291456 rfl
      (by decide) rfl).2.1⟩

/-- C8 counterexample: the four public operations do not all accept the
parameter set (username, password, version, prefix, force) — `open_drugbank`
(like `parse_drugbank` and `get_drugbank_root`) has no `force` parameter. -/
theorem C8_params_counterexample : open_drugbank_params ≠ download_drugbank_params := by
  decide

/-- C8 amended: the four public operations share the optional parameters
(username, password, version, prefix); `force` is accepted by
`download_drugbank` only.  Each later operation is built strictly on the
earlier one, forwarding those parameters: `get_drugbank_root` takes the root
of `parse_drugbank`'s tree, `parse_drugbank` parses inside `open_drugbank`'s
scope, and `open_drugbank` downloads via `download_drugbank` (with `force`
defaulting to `False`). -/
theorem C8_layering (α : Type) (env : Env) (fs : FS)
    (username password version : Option String) (pfx : PfxArg)
    (body : Except DBErr α) :
    open_drugbank_params = ["username", "password", "version", "prefix"] ∧
    parse_drugbank_params = open_drugbank_params ∧
    get_drugbank_root_params = open_drugbank_params ∧
    download_drugbank_params = open_drugbank_params ++ ["force"] ∧
    (get_drugbank_root env fs username password version pfx).result
      = (parse_drugbank env fs username password version pfx).result.map XmlTree.getroot ∧
    (get_drugbank_root env fs username password version pfx).fs
      = (parse_drugbank env fs username password version pfx).fs ∧
    parse_drugbank env fs username password version pfx
      = open_drugbank env fs username password version pfx
          (match env.parsed with
           | .ok t => .ok t
           | .error e => .error (.delegated e)) ∧
    (open_drugbank env fs username password version pfx body).fs
      = (download_drugbank env fs username password version pfx false).fs ∧
    (∃ t, (open_drugbank env fs username password version pfx body).events
      = (download_drugbank env fs username password version pfx false).events ++ t) := by
  refine ⟨rfl, rfl, rfl, rfl, ?_, ?_, rfl, ?_, ?_⟩
  · unfold get_drugbank_root
    rcases parse_drugbank env fs username password version pfx with ⟨res, fs1, evs⟩
    cases res <;> rfl
  · unfold get_drugbank_root
    rcases parse_drugbank env fs username password version pfx with ⟨res, fs1, evs⟩
    cases res <;> rfl
  · unfold open_drugbank
    rcases download_drugbank env fs username password version pfx false with ⟨res, fs1, evs⟩
    cases res with
    | error e => rfl
    | ok path =>
      dsimp only
      cases env.zipErr with
      | some e => rfl
      | none =>
        dsimp only
        cases env.memberErr with
        | some e => rfl
        | none => rfl
  · unfold open_drugbank
    rcases download_drugbank env fs username password version pfx false with ⟨res, fs1, evs⟩
    cases res with
    | error e => exact ⟨[], by simp⟩
    | ok path =>
      dsimp only
      cases env.zipErr with
      | some e => exact ⟨[], by simp⟩
      | none =>
        dsimp only
        cases env.memberErr with
        | some e => exact ⟨[Event.openZip, Event.closeZip], rfl⟩
        | none =>
          exact ⟨[Event.openZip, Event.openMember "full database.xml",
            Event.closeMember, Event.closeZip], rfl⟩

/-- Environment whose network transfer fails with a delegated HTTP error. -/
def envNetErr : Env :=
  ⟨Option.none, fun _ _ => Option.none, Option.none, "ConnectionError", Option.none,
    Option.none, .ok ⟨⟨"drugbank"⟩⟩⟩

/-- Environment whose zip-archive opening fails with a delegated error. -/
def envZipErr : Env :=
  ⟨Option.none, fun _ _ => Option.none, some 6291456, "err", some "BadZipFile",
    Option.none, .ok ⟨⟨"drugbank"⟩⟩⟩

/-- Environment whose member-stream opening fails with a delegated error. -/
def envMemberErr : Env :=
  ⟨Option.none, fun _ _ => Option.none, some 6291456, "err", Option.none,
    some "KeyError", .ok ⟨⟨"drugbank"⟩⟩⟩

/-- Environment whose XML parsing fails with a delegated error. -/
def envXmlErr : Env :=
  ⟨Option.none, fun _ _ => Option.none, some 6291456, "err", Option.none,
    Option.none, .error "XMLSyntaxError"⟩

/-- C9: lower-level I/O, HTTP, zip and XML-parsing errors raised by the
delegated libraries are neither caught nor translated by any of the four
operations: each propagates unchanged (as the same delegated error) to the
caller. -/
theorem C9_error_propagation (env : Env) (fs : FS) (u pw v : String) (pfx : PfxArg)
    (n : Nat) (e : String) {α : Type} (body : Except DBErr α) :
    (env.transfer = Option.none →
      (download_drugbank env fs (some u) (some pw) (some v) pfx true).result
        = .error (.delegated env.transferErr)) ∧
    (fsLookup fs (cache_path pfx.resolve v) = Option.none → env.transfer = some n →
      THRESHOLD ≤ n → env.zipErr = some e →
      (open_drugbank env fs (some u) (some pw) (some v) pfx body).result
        = .error (.delegated e)) ∧
    (fsLookup fs (cache_path pfx.resolve v) = Option.none → env.transfer = some n →
      THRESHOLD ≤ n → env.zipErr = Option.none → env.memberErr = some e →
      (open_drugbank env fs (some u) (some pw) (some v) pfx body).result
        = .error (.delegated e)) ∧
    (fsLookup fs (cache_path pfx.resolve v) = Option.none → env.transfer = some n →
      THRESHOLD ≤ n → env.zipErr = Option.none → env.memberErr = Option.none →
      env.parsed = .error e →
      (parse_drugbank env fs (some u) (some pw) (some v) pfx).result
          = .error (.delegated e) ∧
      (get_drugbank_root env fs (some u) (some pw) (some v) pfx).result
          = .error (.delegated e)) := by
  have hdl : ∀ m, env.transfer = some m → THRESHOLD ≤ m →
      fsLookup fs (cache_path pfx.resolve v) = Option.none →
      download_drugbank env fs (some u) (some pw) (some v) pfx false
        = ⟨.ok (cache_path pfx.resolve v), fsInsert fs (cache_path pfx.resolve v) m,
            [.transfer (drugbank_url v) u pw]⟩ := by
    intro m ht hn hfs
    have hnl : ¬ m < THRESHOLD := Nat.not_lt.mpr hn
    simp [download_drugbank, download_with_version, get_config, ensure, ht, hfs,
      fsLookup_fsInsert_self, hnl]
  refine ⟨?_, ?_, ?_, ?_⟩
  · intro ht
    simp [download_drugbank, download_with_version, get_config, ensure, ht]
  · intro hfs ht hn hz
    unfold open_drugbank
    rw [hdl n ht hn hfs]
    dsimp only
    rw [hz]
  · intro hfs ht hn hz hm
    unfold open_drugbank
    rw [hdl n ht hn hfs]
    dsimp only
    rw [hz]
    dsimp only
    rw [hm]
  · intro hfs ht hn hz hm hx
    have hopen : ∀ β (b : Except DBErr β),
        (open_drugbank env fs (some u) (some pw) (some v) pfx b).result = b := by
      intro β b
      unfold open_drugbank
      rw [hdl n ht hn hfs]
      dsimp only
      rw [hz]
      dsimp only
      rw [hm]
    constructor
    · unfold parse_drugbank
      rw [hx] at *
      rw [hopen]
    · unfold get_drugbank_root parse_drugbank
      rw [hx]
      dsimp only
      rcases hop : open_drugbank env fs (some u) (some pw) (some v) pfx
          (Except.error (DBErr.delegated e) : Except DBErr XmlTree) with ⟨res, fs1, evs⟩
      have := hopen XmlTree (Except.error (DBErr.delegated e))
      rw [hop] at this
      dsimp only at this
      subst this
      rfl

/-- Witness for C9 at concrete runs: a failed transfer, a bad zip, a missing
member and an XML syntax error each surface unchanged. -/
theorem C9_error_propagation_witness :
    (download_drugbank envNetErr [] (some "user") (some "pass") (some "5.1.10")
        PfxArg.none true).result = .error (.delegated "ConnectionError") ∧
    (open_drugbank envZipErr [] (some "user") (some "pass") (some "5.1.10")
        PfxArg.none (.ok 0)).result = .error (.delegated "BadZipFile") ∧
    (open_drugbank envMemberErr [] (some "user") (some "pass") (some "5.1.10")
        PfxArg.none (.ok 0)).result = .error (.delegated "KeyError") ∧
    (parse_drugbank envXmlErr [] (some "user") (some "pass") (some "5.1.10")
        PfxArg.none).result = .error (.delegated "XMLSyntaxError") :=
  ⟨(C9_error_propagation envNetErr [] "user" "pass" "5.1.10" PfxArg.none 0
      "ConnectionError" (Except.ok (0 : Nat))).1 rfl,
   (C9_error_propagation envZipErr [] "user" "pass" "5.1.10" PfxArg.none 6291456
      "BadZipFile" (Except.ok (0 : Nat))).2.1 rfl rfl (by decide) rfl,
   (C9_error_propagation envMemberErr [] "user" "pass" "5.1.10" PfxArg.none 6291456
      "KeyError" (Except.ok (0 : Nat))).2.2.1 rfl rfl (by decide) rfl rfl,
   ((C9_error_propagation envXmlErr [] "user" "pass" "5.1.10" PfxArg.none 6291456
      "XMLSyntaxError" (Except.ok (0 : Nat))).2.2.2 rfl rfl (by decide) rfl rfl rfl).1⟩

/-- C10: a bare-string prefix `s` behaves identically to the one-element
sequence `[s]`, and an absent prefix identically to the sequence
`["drugbank"]`, for every call to `download_drugbank`. -/
theorem C10_prefix_normalisation (env : Env) (fs : FS)
    (username password version : Option String) (s : String) (force : Bool) :
    download_drugbank env fs username password version (.str s) force
      = download_drugbank env fs username password version (.seq [s]) force ∧
    download_drugbank env fs username password version PfxArg.none force
      = download_drugbank env fs username password version (.seq ["drugbank"]) force := by
  constructor <;>
    · unfold download_drugbank
      cases version with
      | some v => rfl
      | none => cases env.bioversions <;> rfl

end DrugbankDownloader
